import Mathlib

/-!
Verification development for the binding-path parser (src/src/lib.rs).

The parser is embedded shallowly: each Rust function becomes a Lean
definition with the same name, the mutable `ParsingState` becomes explicit
state passing, and fallible code returns `Except PError`.  `PError.err m`
models `Err(io::Error)` whose `to_string()` is `m`; `PError.panicked m`
models a Rust panic (e.g. `Option::unwrap` on `None`), which in the source
aborts instead of returning; `PError.outOfFuel` is an artifact of the fuel
used to express the loops and recursion of the source and is unreachable for the
generous fuel bounds supplied (every loop of the source advances
`current_index` by at least one per iteration and stops at end of input, so
`binding.length + 2` iterations always suffice; likewise the `parse_path`
recursion nests at most once per two consumed characters).
-/

/-- Value payload, lib.rs lines 66-70: a string or an `f32` number.  The
parser itself only ever constructs the string variant. -/
inductive ValueNodeValue where
  | String (s : String)
  | Number (n : Float)

/-- lib.rs lines 72-75. -/
structure ValueNode where
  value : ValueNodeValue

/-- lib.rs lines 101-104. -/
structure ExpressionNode where
  value : String

/-- Models `impl From<ValueNode> for ExpressionNode`, lib.rs lines 106-115. -/
def ExpressionNode.from (v : ValueNode) : ExpressionNode :=
  match v.value with
  | .String s => ⟨s⟩
  | .Number n => ⟨toString n⟩

mutual

/-- lib.rs lines 168-175: the sum of all node types.  The `Box`es of the
source are irrelevant to the values and are dropped. -/
inductive AnyNode where
  | Path (p : PathNode)
  | Query (q : QueryNode)
  | Value (v : ValueNode)
  | Expression (e : ExpressionNode)
  | Concatenated (c : ConcatenatedNode)

/-- lib.rs lines 37-40. -/
inductive PathNode where
  | mk (path : List AnyNode)

/-- lib.rs lines 54-58. -/
inductive QueryNode where
  | mk (key : AnyNode) (value : Option AnyNode)

/-- lib.rs lines 117-120. -/
inductive ConcatenatedNode where
  | mk (value : List ConcatableNode)

/-- lib.rs lines 161-166: the nodes a `ConcatenatedNode` may contain;
`Query` and `Concatenated` are excluded by the type itself. -/
inductive ConcatableNode where
  | Path (p : PathNode)
  | Value (v : ValueNode)
  | Expression (e : ExpressionNode)

end

/-- Field accessor for `PathNode`. -/
def PathNode.path : PathNode → List AnyNode
  | .mk l => l

/-- Field accessor for `ConcatenatedNode`. -/
def ConcatenatedNode.value : ConcatenatedNode → List ConcatableNode
  | .mk l => l

/-- Outcome of a fallible step.  `err` models a returned `io::Error` (by its
`to_string()`), `panicked` models a Rust panic, `outOfFuel` is the fuel
artifact described in the file header. -/
inductive PError where
  | err (msg : String)
  | panicked (msg : String)
  | outOfFuel

/-- The panic message of `Option::unwrap` on `None` (backtick-free). -/
def unwrapMsg : String := "called Option::unwrap on a None value"

/-- Panic message of lib.rs line 137. -/
def concatPanicMsg : String := "ConcatenatedNode can only contain ConcatableNodes"

/-- Loop body of `impl From<Vec<AnyNode>> for ConcatenatedNode`, lib.rs
lines 132-139: one `AnyNode` becomes a `ConcatableNode`, panicking on a
`Query` or `Concatenated` element. -/
def concatOne : AnyNode → Except PError ConcatableNode
  | .Path p => .ok (.Path p)
  | .Value v => .ok (.Value v)
  | .Expression e => .ok (.Expression e)
  | _ => .error (.panicked concatPanicMsg)

/-- Models `impl From<Vec<AnyNode>> for ConcatenatedNode`, lib.rs lines 128-143:
converts element-wise via `concatOne`. -/
def concatFromAnyList : List AnyNode → Except PError (List ConcatableNode)
  | [] => .ok []
  | n :: rest =>
    match concatOne n with
    | .error e => .error e
    | .ok c =>
      match concatFromAnyList rest with
      | .error e => .error e
      | .ok cs => .ok (c :: cs)

/-- lib.rs line 245. -/
def SEGMENT_SEPARATOR : Char := Char.ofNat 46
/-- lib.rs line 246: the opening curly brace. -/
def OPEN_CURL : Char := Char.ofNat 123
/-- lib.rs line 247: the closing curly brace. -/
def CLOSE_CURL : Char := Char.ofNat 125
/-- lib.rs line 248. -/
def OPEN_BRACKET : Char := Char.ofNat 91
/-- lib.rs line 249. -/
def CLOSE_BRACKET : Char := Char.ofNat 93
/-- lib.rs line 250. -/
def EQUALS : Char := Char.ofNat 61
/-- lib.rs line 251: the apostrophe. -/
def SINGLE_QUOTE : Char := Char.ofNat 39
/-- lib.rs line 252. -/
def DOUBLE_QUOTE : Char := Char.ofNat 34

/-- Wraps a character in single quotes, as the `format!` strings of the
source do around their arguments. -/
def quoted (c : Char) : String :=
  String.singleton SINGLE_QUOTE ++ String.singleton c ++ String.singleton SINGLE_QUOTE

/-- lib.rs lines 265-270.  `char::is_alphanumeric` is modelled by
`Char.isAlphanum`; they agree on ASCII, which covers every input below. -/
def is_identifier_char : Option Char → Bool
  | some c => c.isAlphanum || c == '_' || c == '-' || c == '@'
  | none => false

/-- lib.rs lines 272-276: the cursor.  `current_char` caches
`binding.chars().nth(...)` exactly as the source maintains it. -/
structure ParsingState where
  binding : String
  current_index : Nat
  current_char : Option Char

/-- Models `ParsingState::new`, lib.rs lines 279-285.  Note the source initialises
`current_index` to 1 while reading character 0. -/
def ParsingState.new (binding : String) : ParsingState :=
  { binding := binding, current_index := 1, current_char := binding.data.get? 0 }

/-- Models `ParsingState::next`, lib.rs lines 287-303.  When `expected` is present
and differs from the current character, the source formats an error message
with `self.current_char.unwrap()` - a panic when the cursor is past the
end. -/
def ParsingState.next (st : ParsingState) (expected : Option Char) :
    Except PError (Option Char × ParsingState) :=
  if expected.isSome ∧ st.current_char ≠ expected then
    match expected, st.current_char with
    | some e, some c => .error (.err ("Expected " ++ quoted e ++ " but found " ++ quoted c))
    | _, none => .error (.panicked unwrapMsg)
    | none, _ => .error (.panicked unwrapMsg)
  else
    let idx := st.current_index + 1
    let c := st.binding.data.get? idx
    .ok (c, { st with current_index := idx, current_char := c })

/-- Loop body of `ParsingState::whitespace`, lib.rs lines 305-311. -/
def ParsingState.whitespaceGo : Nat → ParsingState → Except PError ParsingState
  | 0, _ => .error .outOfFuel
  | fuel + 1, st =>
    match st.current_char with
    | some c =>
      if c.isWhitespace then
        match st.next none with
        | .error e => .error e
        | .ok (_, st') => ParsingState.whitespaceGo fuel st'
      else .ok st
    | none => .ok st

/-- Models `ParsingState::whitespace`, lib.rs lines 305-311. -/
def ParsingState.whitespace (st : ParsingState) : Except PError ParsingState :=
  ParsingState.whitespaceGo (st.binding.length + 2) st

/-- Loop body of `ParsingState::identifier`, lib.rs lines 320-325:
`while self.next(None).is_ok() { if not id-char break; push }`. -/
def ParsingState.identifierGo : Nat → String → ParsingState →
    Except PError (String × ParsingState)
  | 0, _, _ => .error .outOfFuel
  | fuel + 1, value, st =>
    match st.next none with
    | .error _ => .ok (value, st)
    | .ok (_, st') =>
      if is_identifier_char st'.current_char then
        match st'.current_char with
        | some c => ParsingState.identifierGo fuel (value.push c) st'
        | none => .error (.panicked unwrapMsg)
      else .ok (value, st')

/-- Models `ParsingState::identifier`, lib.rs lines 313-331. -/
def ParsingState.identifier (st : ParsingState) :
    Except PError (Option ValueNode × ParsingState) :=
  if is_identifier_char st.current_char then
    match st.current_char with
    | some c =>
      match ParsingState.identifierGo (st.binding.length + 2) (String.singleton c) st with
      | .error e => .error e
      | .ok (value, st') =>
        if value.length = 0 then .ok (none, st')
        else .ok (some ⟨.String value⟩, st')
    | none => .error (.panicked unwrapMsg)
  else .ok (none, st)

/-- Models `ParsingState::expression`, lib.rs lines 333-344.  The source ends with
`ExpressionNode::from(value.unwrap())`: a panic when no identifier was
found. -/
def ParsingState.expression (st : ParsingState) :
    Except PError (Option ExpressionNode × ParsingState) :=
  if st.current_char ≠ some OPEN_CURL then .ok (none, st)
  else
    match st.next (some OPEN_CURL) with
    | .error e => .error e
    | .ok (_, st1) =>
      match st1.whitespace with
      | .error e => .error e
      | .ok st2 =>
        match st2.identifier with
        | .error e => .error e
        | .ok (value, st3) =>
          match st3.whitespace with
          | .error e => .error e
          | .ok st4 =>
            match st4.next (some CLOSE_CURL) with
            | .error e => .error e
            | .ok (_, st5) =>
              match value with
              | some v => .ok (some (ExpressionNode.from v), st5)
              | none => .error (.panicked unwrapMsg)

/-- The only pattern the source ever passes to `ParsingState::regex`
(lib.rs line 436): any character except a quote, tested one at a time. -/
def ID_REGEX (c : Char) : Bool := !(c == SINGLE_QUOTE || c == DOUBLE_QUOTE)

/-- Loop body of `ParsingState::regex`, lib.rs lines 412-418; line 413
unwraps `current_char`, a panic past the end of input. -/
def ParsingState.regexGo (pm : Char → Bool) : Nat → String → ParsingState →
    Except PError (String × ParsingState)
  | 0, _, _ => .error .outOfFuel
  | fuel + 1, value, st =>
    match st.next none with
    | .error _ => .ok (value, st)
    | .ok (_, st') =>
      match st'.current_char with
      | none => .error (.panicked unwrapMsg)
      | some c =>
        if pm c then ParsingState.regexGo pm fuel (value.push c) st'
        else .ok (value, st')

/-- Models `ParsingState::regex`, lib.rs lines 405-421.  Line 406 unwraps
`current_char` (panic at end of input), and line 420 returns `Ok(None)`
unconditionally, discarding the scanned text. -/
def ParsingState.regex (st : ParsingState) (pattern_match : Char → Bool) :
    Except PError (Option ValueNode × ParsingState) :=
  match st.current_char with
  | none => .error (.panicked unwrapMsg)
  | some c =>
    if pattern_match c then
      match ParsingState.regexGo pattern_match (st.binding.length + 2)
          (String.singleton c) st with
      | .error e => .error e
      | .ok (_, st') => .ok (none, st')
    else .ok (none, st)

/-- Models `ParsingState::optionally_quoted_segment`, lib.rs lines 423-449.  The
guard mirrors `current_char != SOME_SINGLE_QUOTE || current_char ==
SOME_DOUBLE_QUOTE`, and the final `id.unwrap()` panics whenever `regex`
returned `None`. -/
def ParsingState.optionally_quoted_segment (st : ParsingState) :
    Except PError (Option AnyNode × ParsingState) :=
  match st.whitespace with
  | .error e => .error e
  | .ok st1 =>
    if st1.current_char ≠ some SINGLE_QUOTE ∨ st1.current_char = some DOUBLE_QUOTE then
      let is_single_quoted := st1.current_char = some SINGLE_QUOTE
      match st1.next (if is_single_quoted then some SINGLE_QUOTE else some DOUBLE_QUOTE) with
      | .error e => .error e
      | .ok (_, st2) =>
        match st2.regex ID_REGEX with
        | .error e => .error e
        | .ok (id, st3) =>
          match st3.next (if is_single_quoted then some SINGLE_QUOTE
                          else some DOUBLE_QUOTE) with
          | .error e => .error e
          | .ok (_, st4) =>
            match id with
            | some v => .ok (some (.Value v), st4)
            | none => .error (.panicked unwrapMsg)
    else .ok (none, st1)

/-- Loop body of `ParsingState::equals`, lib.rs lines 456-458. -/
def ParsingState.equalsGo : Nat → ParsingState → Except PError ParsingState
  | 0, _ => .error .outOfFuel
  | fuel + 1, st =>
    if st.current_char = some EQUALS then
      match st.next none with
      | .error e => .error e
      | .ok (_, st') => ParsingState.equalsGo fuel st'
    else .ok st

/-- Models `ParsingState::equals`, lib.rs lines 451-461. -/
def ParsingState.equals (st : ParsingState) : Except PError (Bool × ParsingState) :=
  if st.current_char ≠ some EQUALS then .ok (false, st)
  else
    match ParsingState.equalsGo (st.binding.length + 2) st with
    | .error e => .error e
    | .ok st' => .ok (true, st')

/-- Models `ParsingState::parse_bracket`, lib.rs lines 463-493. -/
def ParsingState.parse_bracket (st : ParsingState) :
    Except PError (Option AnyNode × ParsingState) :=
  if st.current_char = some OPEN_BRACKET then
    match st.next (some OPEN_BRACKET) with
    | .error e => .error e
    | .ok (_, st1) =>
      match st1.whitespace with
      | .error e => .error e
      | .ok st2 =>
        match st2.optionally_quoted_segment with
        | .error e => .error e
        | .ok (none, _) => .error (.err "Expected identifier")
        | .ok (some key, st3) =>
          match st3.whitespace with
          | .error e => .error e
          | .ok st4 =>
            match st4.equals with
            | .error e => .error e
            | .ok (eq_res, st5) =>
              if eq_res then
                match st5.whitespace with
                | .error e => .error e
                | .ok st6 =>
                  match st6.optionally_quoted_segment with
                  | .error e => .error e
                  | .ok (second, st7) =>
                    match st7.whitespace with
                    | .error e => .error e
                    | .ok st8 =>
                      match st8.next (some CLOSE_BRACKET) with
                      | .error e => .error e
                      | .ok (_, st9) => .ok (some (.Query ⟨key, second⟩), st9)
              else
                match st5.next (some CLOSE_BRACKET) with
                | .error e => .error e
                | .ok (_, st6) => .ok (some key, st6)
  else .ok (none, st)

/-- The type of the path-driver continuation handed to the rules below: the
mutual recursion of the source, `nested_path` to `parse_path`, is broken by passing
the driver (at one less fuel) as an argument. -/
def PathFn : Type := ParsingState → Except PError (PathNode × ParsingState)

/-- Models `ParsingState::nested_path`, lib.rs lines 346-363.  When the character
after the consumed `{` is not another `{`, the source returns `None`
without restoring the consumed input. -/
def ParsingState.nested_path (pp : PathFn) (st : ParsingState) :
    Except PError (Option PathNode × ParsingState) :=
  if st.current_char = some OPEN_CURL then
    match st.next (some OPEN_CURL) with
    | .error e => .error e
    | .ok (_, st1) =>
      if st1.current_char = some OPEN_CURL then
        match st1.next (some OPEN_CURL) with
        | .error e => .error e
        | .ok (_, st2) =>
          match pp st2 with
          | .error e => .error e
          | .ok (path_node, st3) =>
            match st3.next (some CLOSE_CURL) with
            | .error e => .error e
            | .ok (_, st4) =>
              match st4.next (some CLOSE_CURL) with
              | .error e => .error e
              | .ok (_, st5) => .ok (some path_node, st5)
      else .ok (none, st1)
  else .ok (none, st)

/-- Models `ParsingState::simple_segment`, lib.rs lines 365-383: tries
`nested_path`, `expression`, `identifier` in order on the successively
mutated state. -/
def ParsingState.simple_segment (pp : PathFn) (st : ParsingState) :
    Except PError (Option AnyNode × ParsingState) :=
  match st.nested_path pp with
  | .error e => .error e
  | .ok (some pn, st1) => .ok (some (.Path pn), st1)
  | .ok (none, st1) =>
    match st1.expression with
    | .error e => .error e
    | .ok (some en, st2) => .ok (some (.Expression en), st2)
    | .ok (none, st2) =>
      match st2.identifier with
      | .error e => .error e
      | .ok (some vn, st3) => .ok (some (.Value vn), st3)
      | .ok (none, st3) => .ok (none, st3)

/-- Loop of `ParsingState::segment`, lib.rs lines 386-392: collect
`simple_segment` results while they match. -/
def ParsingState.segmentGo (pp : PathFn) : Nat → List AnyNode → ParsingState →
    Except PError (List AnyNode × ParsingState)
  | 0, _, _ => .error .outOfFuel
  | fuel + 1, acc, st =>
    match st.simple_segment pp with
    | .error e => .error e
    | .ok (none, st') => .ok (acc, st')
    | .ok (some n, st') => ParsingState.segmentGo pp fuel (acc ++ [n]) st'

/-- Models `ParsingState::segment`, lib.rs lines 385-403: zero matches is no
match, one match is returned bare, two or more are fused into a
`Concatenated` node. -/
def ParsingState.segment (pp : PathFn) (st : ParsingState) :
    Except PError (Option AnyNode × ParsingState) :=
  match st.segmentGo pp (st.binding.length + 2) [] with
  | .error e => .error e
  | .ok (segments, st') =>
    if segments.length = 0 then .ok (none, st')
    else if segments.length = 1 then .ok (segments.head?, st')
    else
      match concatFromAnyList segments with
      | .error e => .error e
      | .ok cs => .ok (some (.Concatenated ⟨cs⟩), st')

/-- Bracket loop of `ParsingState::parse_segment_and_brackets`, lib.rs
lines 502-507. -/
def ParsingState.bracketsGo : Nat → List AnyNode → ParsingState →
    Except PError (List AnyNode × ParsingState)
  | 0, _, _ => .error .outOfFuel
  | fuel + 1, acc, st =>
    match st.parse_bracket with
    | .error e => .error e
    | .ok (none, st') => .ok (acc, st')
    | .ok (some n, st') => ParsingState.bracketsGo fuel (acc ++ [n]) st'

/-- Models `ParsingState::parse_segment_and_brackets`, lib.rs lines 495-511.
Always returns `Ok(Some(..))`; the list is empty when no segment
matched. -/
def ParsingState.parse_segment_and_brackets (pp : PathFn) (st : ParsingState) :
    Except PError (Option (List AnyNode) × ParsingState) :=
  match st.segment pp with
  | .error e => .error e
  | .ok (none, st1) => .ok (some [], st1)
  | .ok (some n, st1) =>
    match st1.bracketsGo (st1.binding.length + 2) [] with
    | .error e => .error e
    | .ok (brs, st2) => .ok (some ([n] ++ brs), st2)

/-- Driver loop of `ParsingState::parse_path`, lib.rs lines 518-536: append
the group and stop at end of input or at a closing curly.  Rust
`Vec::append` moves all elements out of its argument, so after
`parts.append(&mut unwrapped)` at line 521 the vector `unwrapped` is empty
(modelled by the shadowing binding below) and the test
`unwrapped.len() == 0` at line 527 is always true: any other leftover
character makes the driver fail with Unexpected character, and the
separator consumption and next group at lines 534-535 are dead code, kept
here for fidelity. -/
def ParsingState.parsePathGo (pp : PathFn) : Nat → List AnyNode →
    Option (List AnyNode) → ParsingState → Except PError (PathNode × ParsingState)
  | 0, _, _, _ => .error .outOfFuel
  | _ + 1, parts, none, st => .ok (⟨parts⟩, st)
  | fuel + 1, parts, some unwrapped, st =>
    let parts := parts ++ unwrapped
    let unwrapped : List AnyNode := []
    if st.current_char = none ∨ st.current_char = some CLOSE_CURL then .ok (⟨parts⟩, st)
    else if unwrapped.length = 0 ∧ st.current_char.isSome then
      match st.current_char with
      | some c => .error (.err ("Unexpected character: " ++ quoted c))
      | none => .error (.panicked unwrapMsg)
    else
      match st.next (some SEGMENT_SEPARATOR) with
      | .error e => .error e
      | .ok (_, st2) =>
        match st2.parse_segment_and_brackets pp with
        | .error e => .error e
        | .ok (seg?, st3) => ParsingState.parsePathGo pp fuel parts seg? st3

/-- Models `ParsingState::parse_path`, lib.rs lines 513-539, by recursion on fuel;
the recursive occurrence (through `nested_path`) runs at one less fuel. -/
def ParsingState.parse_path : Nat → ParsingState →
    Except PError (PathNode × ParsingState)
  | 0, _ => .error .outOfFuel
  | fuel + 1, st =>
    match st.parse_segment_and_brackets (ParsingState.parse_path fuel) with
    | .error e => .error e
    | .ok (seg?, st1) =>
      st1.parsePathGo (ParsingState.parse_path fuel) (st.binding.length + 2) [] seg?

/-- Models `parse_binding`, lib.rs lines 542-551. -/
def parse_binding (raw_binding : String) : Except PError (List AnyNode) :=
  match (ParsingState.new raw_binding).parse_path (raw_binding.length + 2) with
  | .ok (path, _) => .ok path.path
  | .error e => .error e

mutual

/-- Well-formedness of a parse-tree node: every `Concatenated` node anywhere
in the tree carries at least two elements (its elements are
`ConcatableNode`s - `Path`, `Value` or `Expression` - by type). -/
inductive GoodAny : AnyNode → Prop where
  | path : ∀ l, (∀ a ∈ l, GoodAny a) → GoodAny (.Path ⟨l⟩)
  | query : ∀ k v, GoodAny k → (∀ x ∈ v, GoodAny x) → GoodAny (.Query ⟨k, v⟩)
  | value : ∀ v, GoodAny (.Value v)
  | expr : ∀ e, GoodAny (.Expression e)
  | concat : ∀ l, 2 ≤ l.length → (∀ c ∈ l, GoodCon c) → GoodAny (.Concatenated ⟨l⟩)

/-- Well-formedness of a concatenable element. -/
inductive GoodCon : ConcatableNode → Prop where
  | path : ∀ l, (∀ a ∈ l, GoodAny a) → GoodCon (.Path ⟨l⟩)
  | value : ∀ v, GoodCon (.Value v)
  | expr : ∀ e, GoodCon (.Expression e)

end

/-- The goodness contract of a path-driver continuation. -/
def GoodPP (pp : PathFn) : Prop :=
  ∀ (st : ParsingState) (pn : PathNode) (st' : ParsingState),
    pp st = .ok (pn, st') → ∀ a ∈ pn.path, GoodAny a

theorem regex_ok_none (st : ParsingState) (pm : Char → Bool) (a : Option ValueNode)
    (st' : ParsingState) (h : st.regex pm = .ok (a, st')) : a = none := by
  unfold ParsingState.regex at h
  split at h
  · cases h
  · split at h
    · split at h
      · cases h
      · cases h; rfl
    · cases h; rfl

theorem oqs_ok_none (st : ParsingState) (a : Option AnyNode) (st' : ParsingState)
    (h : st.optionally_quoted_segment = .ok (a, st')) : a = none := by
  unfold ParsingState.optionally_quoted_segment at h
  split at h
  · cases h
  · split at h
    · simp only [] at h
      split at h
      · cases h
      · split at h
        · cases h
        · split at h
          · cases h
          · split at h
            · have hn : _ = (none : Option ValueNode) := regex_ok_none _ _ _ _ (by assumption)
              cases hn
            · cases h
    · cases h; rfl

theorem parse_bracket_ok_none (st : ParsingState) (a : Option AnyNode) (st' : ParsingState)
    (h : st.parse_bracket = .ok (a, st')) : a = none := by
  unfold ParsingState.parse_bracket at h
  split at h
  · split at h
    · cases h
    · split at h
      · cases h
      · split at h
        · cases h
        · cases h
        · have hn : _ = (none : Option AnyNode) := oqs_ok_none _ _ _ (by assumption)
          cases hn
  · cases h; rfl

theorem bracketsGo_ok (fuel : Nat) : ∀ (acc : List AnyNode) (st : ParsingState)
    (r : List AnyNode) (st' : ParsingState),
    ParsingState.bracketsGo fuel acc st = .ok (r, st') → r = acc := by
  induction fuel with
  | zero => intro acc st r st' h; cases h
  | succ fuel ih =>
    intro acc st r st' h
    unfold ParsingState.bracketsGo at h
    split at h
    · cases h
    · cases h; rfl
    · have hn : _ = (none : Option AnyNode) := parse_bracket_ok_none _ _ _ (by assumption)
      cases hn

theorem concatFromAnyList_length : ∀ (l : List AnyNode) (cs : List ConcatableNode),
    concatFromAnyList l = .ok cs → cs.length = l.length := by
  intro l
  induction l with
  | nil => intro cs h; cases h; rfl
  | cons n rest ih =>
    intro cs h
    unfold concatFromAnyList at h
    split at h
    · cases h
    · split at h
      · cases h
      · cases h
        simp [ih _ (by assumption)]

theorem concatFromAnyList_good : ∀ (l : List AnyNode) (cs : List ConcatableNode),
    concatFromAnyList l = .ok cs → (∀ a ∈ l, GoodAny a) → ∀ c ∈ cs, GoodCon c := by
  intro l
  induction l with
  | nil => intro cs h _; cases h; intro c hc; cases hc
  | cons n rest ih =>
    intro cs h hg
    have hgn : GoodAny n := hg n (by simp)
    have hgrest : ∀ a ∈ rest, GoodAny a := fun a ha => hg a (List.mem_cons_of_mem _ ha)
    unfold concatFromAnyList at h
    cases n with
    | Path p =>
      simp only [concatOne] at h
      split at h
      · cases h
      · cases h
        intro x hx
        cases hx with
        | head =>
          cases hgn with
          | path l hl => exact GoodCon.path l hl
        | tail _ hx' => exact ih _ (by assumption) hgrest x hx'
    | Value v =>
      simp only [concatOne] at h
      split at h
      · cases h
      · cases h
        intro x hx
        cases hx with
        | head => exact GoodCon.value _
        | tail _ hx' => exact ih _ (by assumption) hgrest x hx'
    | Expression e =>
      simp only [concatOne] at h
      split at h
      · cases h
      · cases h
        intro x hx
        cases hx with
        | head => exact GoodCon.expr _
        | tail _ hx' => exact ih _ (by assumption) hgrest x hx'
    | Query q => simp only [concatOne] at h; cases h
    | Concatenated c => simp only [concatOne] at h; cases h

theorem nested_path_good (pp : PathFn) (hpp : GoodPP pp) (st : ParsingState)
    (pn : PathNode) (st' : ParsingState)
    (h : st.nested_path pp = .ok (some pn, st')) : GoodAny (.Path pn) := by
  obtain ⟨l⟩ := pn
  unfold ParsingState.nested_path at h
  split at h
  · split at h
    · cases h
    · split at h
      · split at h
        · cases h
        · split at h
          · cases h
          · split at h
            · cases h
            · split at h
              · cases h
              · cases h
                exact GoodAny.path l (hpp _ ⟨l⟩ _ (by assumption))
      · simp at h
  · simp at h

theorem simple_segment_good (pp : PathFn) (hpp : GoodPP pp) (st : ParsingState)
    (n : AnyNode) (st' : ParsingState)
    (h : st.simple_segment pp = .ok (some n, st')) : GoodAny n := by
  unfold ParsingState.simple_segment at h
  split at h
  · cases h
  · cases h
    exact nested_path_good pp hpp _ _ _ (by assumption)
  · split at h
    · cases h
    · cases h; exact GoodAny.expr _
    · split at h
      · cases h
      · cases h; exact GoodAny.value _
      · cases h

theorem segmentGo_good (pp : PathFn) (hpp : GoodPP pp) (fuel : Nat) :
    ∀ (acc : List AnyNode) (st : ParsingState) (l : List AnyNode) (st' : ParsingState),
    (∀ a ∈ acc, GoodAny a) → ParsingState.segmentGo pp fuel acc st = .ok (l, st') →
    ∀ a ∈ l, GoodAny a := by
  induction fuel with
  | zero => intro acc st l st' _ h; cases h
  | succ fuel ih =>
    intro acc st l st' hacc h
    unfold ParsingState.segmentGo at h
    split at h
    · cases h
    · cases h; exact hacc
    · refine ih _ _ _ _ ?_ h
      intro a ha
      rcases List.mem_append.mp ha with ha' | ha'
      · exact hacc a ha'
      · rcases List.mem_singleton.mp ha' with rfl
        exact simple_segment_good pp hpp _ _ _ (by assumption)

theorem segment_good (pp : PathFn) (hpp : GoodPP pp) (st : ParsingState)
    (n : AnyNode) (st' : ParsingState)
    (h : st.segment pp = .ok (some n, st')) : GoodAny n := by
  unfold ParsingState.segment at h
  split at h
  · cases h
  · split at h
    · simp at h
    · split at h
      · rename_i segments st1 hgo hlen0 hlen1
        cases segments with
        | nil => exact absurd rfl hlen0
        | cons x xs =>
          cases h
          exact segmentGo_good pp hpp _ _ _ _ _
            (fun a ha => absurd ha (List.not_mem_nil a)) hgo n (by simp)
      · split at h
        · cases h
        · cases h
          refine GoodAny.concat _ ?_ ?_
          · have hlen := concatFromAnyList_length _ _ (by assumption)
            omega
          · exact concatFromAnyList_good _ _ (by assumption)
              (segmentGo_good pp hpp _ _ _ _ _
                (fun a ha => absurd ha (List.not_mem_nil a)) (by assumption))

theorem psab_good (pp : PathFn) (hpp : GoodPP pp) (st : ParsingState)
    (l : List AnyNode) (st' : ParsingState)
    (h : st.parse_segment_and_brackets pp = .ok (some l, st')) : ∀ a ∈ l, GoodAny a := by
  unfold ParsingState.parse_segment_and_brackets at h
  split at h
  · cases h
  · cases h
    intro a ha
    exact absurd ha (List.not_mem_nil a)
  · split at h
    · cases h
    · cases h
      have hbr : _ = ([] : List AnyNode) := bracketsGo_ok _ _ _ _ _ (by assumption)
      intro a ha
      rw [hbr] at ha
      simp at ha
      subst ha
      exact segment_good pp hpp _ _ _ (by assumption)

theorem parsePathGo_good (pp : PathFn) (hpp : GoodPP pp) (fuel : Nat) :
    ∀ (parts : List AnyNode) (sg : Option (List AnyNode)) (st : ParsingState)
      (pn : PathNode) (st' : ParsingState),
    (∀ a ∈ parts, GoodAny a) →
    (∀ l, sg = some l → ∀ a ∈ l, GoodAny a) →
    ParsingState.parsePathGo pp fuel parts sg st = .ok (pn, st') →
    ∀ a ∈ pn.path, GoodAny a := by
  induction fuel with
  | zero => intro parts sg st pn st' _ _ h; cases h
  | succ fuel ih =>
    intro parts sg st pn st' hparts hseg h
    cases sg with
    | none =>
      unfold ParsingState.parsePathGo at h
      cases h
      exact hparts
    | some unwrapped =>
      unfold ParsingState.parsePathGo at h
      simp only [] at h
      split at h
      · cases h
        intro a ha
        rcases List.mem_append.mp ha with ha' | ha'
        · exact hparts a ha'
        · exact hseg unwrapped rfl a ha'
      · split at h
        · split at h
          · cases h
          · cases h
        · split at h
          · cases h
          · split at h
            · cases h
            · refine ih _ _ _ _ _ ?_ ?_ h
              · intro a ha
                rcases List.mem_append.mp ha with ha' | ha'
                · exact hparts a ha'
                · exact hseg unwrapped rfl a ha'
              · intro l hl a ha
                subst hl
                exact psab_good pp hpp _ _ _ (by assumption) a ha

theorem parse_path_good : ∀ fuel, GoodPP (ParsingState.parse_path fuel) := by
  intro fuel
  induction fuel with
  | zero =>
    intro st pn st' h
    unfold ParsingState.parse_path at h
    cases h
  | succ fuel ih =>
    intro st pn st' h
    unfold ParsingState.parse_path at h
    split at h
    · cases h
    · refine parsePathGo_good _ ih _ _ _ _ _ _
        (fun a ha => absurd ha (List.not_mem_nil a)) ?_ h
      intro l hl a ha
      subst hl
      exact psab_good _ ih _ _ _ (by assumption) a ha


/-- C1.  The claim says the cursor visits the characters in order from the
first, one per advance, so that `parse("foo")` yields `[Value("foo")]` and
`parse("foo.bar")` yields `[Value("foo"), Value("bar")]`.  The code starts
with `current_index = 1` while caching character 0, so the first advance
jumps to character 2: the character at index 1 is never visited.  This
theorem evaluates the code at the failing inputs: the first advance on
"abc" returns the character c, the parse of "foo" drops the second o, and
the parse of "foo.bar" does not even reach "bar" - after the first group
the drained-vector check of the driver (see `ParsingState.parsePathGo`)
fails on the leftover separator. -/
theorem c1_cursor_skips_second_char :
    (ParsingState.new "abc").next none = .ok (some 'c', ⟨"abc", 2, some 'c'⟩) ∧
    parse_binding "foo" = .ok [.Value ⟨.String "fo"⟩] ∧
    parse_binding "foo.bar" =
      .error (.err ("Unexpected character: " ++ quoted SEGMENT_SEPARATOR)) :=
  ⟨rfl, rfl, rfl⟩

/-- C2.  The claim says the top-level parse is total: for every input it
returns a tagged success or failure and never panics.  The code panics on
the input "ab[": after consuming the bracket the cursor is past the end,
and `next(SOME_DOUBLE_QUOTE)` formats its mismatch error with
`self.current_char.unwrap()`, a panic on `None`. -/
theorem c2_parse_binding_panics :
    parse_binding "ab[" = .error (.panicked unwrapMsg) := rfl

/-- C3.  The claim says a single open curly not followed by a second one is
left for the expression rule, so `parse("\x7bname\x7d")` yields
`[Expression("name")]`.  In the code `nested_path` consumes the open curly
(and the cursor bug of C1 additionally skips the following character), so
the expression rule never sees it: the parse succeeds with the plain value
"ame" instead. -/
theorem c3_brace_expression_not_recognized :
    parse_binding "\x7bname\x7d" = .ok [.Value ⟨.String "ame"⟩] := rfl

/-- C4.  The claim says `parse("\x7b\x7bfoo.bar\x7d\x7d")` yields the single
nested-path node `[Path([Value("foo"), Value("bar")])]`.  In the code the
cursor bug of C1 skips the second open curly, so `nested_path` does not
commit and the first group parses as the bare value "foo"; the cursor then
sits on the dot, where the drained-vector check of the driver (see
`ParsingState.parsePathGo`) fails: the parse errors instead of producing a
nested path. -/
theorem c4_double_brace_rejected :
    parse_binding "\x7b\x7bfoo.bar\x7d\x7d" =
      .error (.err ("Unexpected character: " ++ quoted SEGMENT_SEPARATOR)) := rfl

/-- The input of C5, `foo['key'='val']`, built without apostrophe
literals. -/
def c5_input : String :=
  "foo[" ++ String.singleton SINGLE_QUOTE ++ "key" ++ String.singleton SINGLE_QUOTE
    ++ "=" ++ String.singleton SINGLE_QUOTE ++ "val" ++ String.singleton SINGLE_QUOTE ++ "]"

/-- C5.  The claim says the quoted-segment rule commits exactly on a quote
character and that `parse("foo['key'='val']")` succeeds with a `Query`
node.  In the code the guard at lib.rs line 426 is inverted (it commits
exactly when the character is NOT a single quote) and the `regex` helper
always returns `Ok(None)` (lib.rs line 420), so the single-quoted key is
treated as no match and the bracket rule fails with "Expected
identifier". -/
theorem c5_quoted_query_rejected :
    parse_binding c5_input = .error (.err "Expected identifier") := rfl

/-- C6.  Parsing an input that ends with a trailing separator and nothing
after it fails with the failure variant, as the claim states: after the
first group the cursor sits on the dot, which is neither end of input nor
a closing curly, and since `Vec::append` drained the group vector the
check at lib.rs line 527 fires, returning the UnexpectedCharacter
failure. -/
theorem c6_trailing_separator_fails :
    parse_binding "foo." =
      .error (.err ("Unexpected character: " ++ quoted SEGMENT_SEPARATOR)) := rfl

/-- C7.  Parsing the empty string succeeds with the empty path: the first
group is empty and the cursor is already at end of input, so the driver
stops with zero segments. -/
theorem c7_empty_input_empty_path : parse_binding "" = .ok [] := rfl

/-- C8.  In every tree produced by a successful parse, every `Concatenated`
node holds at least two elements, and its elements are `ConcatableNode`s -
`Path`, `Value` or `Expression`, never `Query` or another `Concatenated` -
by the very type of `ConcatenatedNode`; a segment that matched exactly one
token is returned bare by `segment` (lib.rs lines 398-400), so no
one-element `Concatenated` node exists anywhere in the output. -/
theorem c8_concatenated_invariant (s : String) (nodes : List AnyNode)
    (h : parse_binding s = .ok nodes) : ∀ n ∈ nodes, GoodAny n := by
  unfold parse_binding at h
  split at h
  · cases h
    exact parse_path_good _ _ _ _ (by assumption)
  · cases h

/-- Witness for C8: the parse of `a\x7b\x7bb\x7d\x7d` succeeds with one
two-element `Concatenated` node, and the invariant holds of it. -/
theorem c8_concatenated_invariant_witness :
    GoodAny (.Concatenated ⟨[.Value ⟨.String "a"⟩, .Value ⟨.String "b"⟩]⟩) :=
  c8_concatenated_invariant "a\x7b\x7bb\x7d\x7d"
    [.Concatenated ⟨[.Value ⟨.String "a"⟩, .Value ⟨.String "b"⟩]⟩] rfl
    (.Concatenated ⟨[.Value ⟨.String "a"⟩, .Value ⟨.String "b"⟩]⟩) (by simp)

/-- C9.  The claim says that when the expression rule has committed by
consuming the open curly and no identifier follows, the parse aborts with
the failure "Expected identifier".  Evaluating `expression` on a committed
state (cursor on the open curly of the binding `x\x7b\x7d`, so an empty
pair of curls follows) shows the code instead panics: `identifier` returns
`None`, the closing curl is consumed, and `ExpressionNode::from(
value.unwrap())` unwraps `None`.  No "Expected identifier" failure exists
in this rule. -/
theorem c9_expression_missing_identifier_panics :
    ParsingState.expression ⟨"x\x7b\x7d", 1, some OPEN_CURL⟩ =
      .error (.panicked unwrapMsg) := rfl

/-- C10 counterexample.  The claim says that for a valid path followed by a
closing curly and arbitrary trailing text, for example `a\x7db`, the parse
succeeds and the closing curly and everything after it do not affect the
returned path.  On `a\x7db` the parse does succeed, but the returned path
is `[Value("ab")]`, not the `[Value("a")]` that `parse("a")` returns: the
cursor bug of C1 skips the closing curly at index 1 and the trailing b is
fused into the value. -/
theorem c10_counterexample :
    parse_binding "a\x7db" = .ok [.Value ⟨.String "ab"⟩] ∧
    parse_binding "a" = .ok [.Value ⟨.String "a"⟩] := ⟨rfl, rfl⟩

/-- C10 amended.  When the cursor actually reads a top-level closing curly
(which it never does at string index 1, by the cursor bug of C1), parsing
terminates successfully and the closing curly and all trailing text are
ignored: for every trailing string t, parsing `ab\x7d` followed by t
succeeds with the same path `[Value("a")]` (the b at index 1 is dropped by
the cursor bug). -/
theorem c10_close_curl_terminates (t : String) :
    parse_binding ("ab\x7d" ++ t) = .ok [.Value ⟨.String "a"⟩] := rfl
